import Mathlib

/-!
Verification model of the swiftTorrent session/snapshot core (`TorrentCore.h`).

The repository ships only the C boundary header `src/TorrentCore/TorrentCore.h`
(declarations of `st_session_create`, `st_session_destroy`, `st_add_magnet`,
`st_get_torrents`, `st_get_torrent_name` and the `STTorrentStatus` record).
The implementation behind those declarations is not part of `src/`, so the
behaviour of every operation is modelled from the specification (`spec.md`,
sections 3-7).  Machine integers (`int32_t`, `int64_t`) are modelled as `Int`
(no claim depends on overflow), the `float progress` field as `Rat`, C strings
written into the caller's error buffer as `List Char`, and the opaque
`STSessionRef` handle as a natural-number key into a handle table.
-/

set_option autoImplicit false

/-- Modelled from the spec: the closed state set of a Torrent Entry
(spec 3, spec 4.1); the header stores it as `int32_t state`. -/
inductive STState where
  | checking
  | downloading
  | finished
  | seeding
  | paused
  | error
  deriving DecidableEq, Repr

/-- The `STTorrentStatus` record of `TorrentCore.h` lines 20-36.
`progress` models the C `float`, the counters model `int64_t`/`int32_t`,
`state` models the `int32_t` state code through the spec's closed state set. -/
structure STTorrentStatus where
  progress : Rat
  total_wanted : Int
  total_wanted_done : Int
  download_rate : Int
  upload_rate : Int
  num_peers : Int
  num_seeds : Int
  state : STState
  is_seeding : Bool
  is_paused : Bool
  has_error : Bool
  deriving DecidableEq, Repr

/-- Modelled from the spec: the error taxonomy of spec 7. -/
inductive STError where
  | ConfigurationError
  | InvalidSessionError
  | ParseError
  | DuplicateError
  | FilesystemError
  | IndexOutOfRangeError
  | NoSnapshotError
  deriving DecidableEq, Repr

/-- Modelled from the spec: a Torrent Entry (spec 3): stable identity,
display name (empty until metadata resolves), and the mutable status
fields mirrored by `STTorrentStatus`.  `magnetKey` is the underlying
torrent identity parsed from the magnet URI, used for duplicate
detection (spec 4.2). -/
structure TorrentEntry where
  identity : Nat
  magnetKey : String
  display_name : String
  progress : Rat
  total_wanted : Int
  total_wanted_done : Int
  download_rate : Int
  upload_rate : Int
  num_peers : Int
  num_seeds : Int
  state : STState
  deriving DecidableEq, Repr

/-- The status record copied out of an entry by a snapshot.  The three
booleans are projections of `state` (spec 4.1): `has_error` iff `Error`,
`is_seeding` iff `Seeding`, `is_paused` iff `Paused`. -/
def statusOf (e : TorrentEntry) : STTorrentStatus :=
  { progress := e.progress
    total_wanted := e.total_wanted
    total_wanted_done := e.total_wanted_done
    download_rate := e.download_rate
    upload_rate := e.upload_rate
    num_peers := e.num_peers
    num_seeds := e.num_seeds
    state := e.state
    is_seeding := decide (e.state = STState.seeding)
    is_paused := decide (e.state = STState.paused)
    has_error := decide (e.state = STState.error) }

/-- Modelled from the spec: the per-session state (spec 3): the registry's
entries in the fixed total order (insertion order of registration), the
Snapshot Coordinator's currently held Snapshot (captured status plus
captured display name per index), and the next fresh identity. -/
structure SessionState where
  entries : List TorrentEntry
  heldSnapshot : Option (List (STTorrentStatus × String))
  nextIdentity : Nat
  deriving DecidableEq, Repr

/-- A session handle's slot: live, or destroyed (operations on a destroyed
handle surface `InvalidSessionError`, spec 4.2). -/
inductive SessionSlot where
  | live (s : SessionState)
  | destroyed
  deriving DecidableEq, Repr

/-- The handle table mapping opaque `STSessionRef` handles to sessions. -/
structure Engine where
  slots : List (Nat × SessionSlot)
  nextHandle : Nat
  deriving DecidableEq, Repr

/-- Modelled from the spec: the environment the core consults synchronously:
which listen ports can bind (spec 4.2 `create`) and which save paths are
usable (spec 4.2 `add`, synchronous validation per spec 9). -/
structure Env where
  canBind : Nat → Bool
  pathUsable : String → Bool

deriving instance DecidableEq for Except

def emptyEngine : Engine := { slots := [], nextHandle := 0 }

def initialSession : SessionState :=
  { entries := [], heldSnapshot := none, nextIdentity := 0 }

def lookupSlots : List (Nat × SessionSlot) → Nat → Option SessionSlot
  | [], _ => none
  | p :: rest, h => if p.1 = h then some p.2 else lookupSlots rest h

def lookupSlot (E : Engine) (h : Nat) : Option SessionSlot :=
  lookupSlots E.slots h

def setSlots : List (Nat × SessionSlot) → Nat → SessionSlot → List (Nat × SessionSlot)
  | [], _, _ => []
  | p :: rest, h, v =>
    if p.1 = h then (p.1, v) :: setSlots rest h v else p :: setSlots rest h v

def setSlot (E : Engine) (h : Nat) (v : SessionSlot) : Engine :=
  { E with slots := setSlots E.slots h v }

/-- Modelled from the spec: `st_session_create` (header line 38, spec 4.2):
validates `listen_port_start <= listen_port_end`, fails with
`ConfigurationError` if the range is invalid or no port in the range can
bind; on success allocates a fresh live session and returns its handle. -/
def st_session_create (env : Env) (E : Engine) (ps pe : Nat) :
    Except STError (Engine × Nat) :=
  if pe < ps then .error .ConfigurationError
  else if (List.range' ps (pe + 1 - ps)).all (fun p => !env.canBind p) then
    .error .ConfigurationError
  else
    .ok ({ slots := (E.nextHandle, .live initialSession) :: E.slots,
           nextHandle := E.nextHandle + 1 }, E.nextHandle)

/-- Modelled from the spec: `st_session_destroy` (header line 39, spec 4.2):
invalidates the handle; a second destroy, or destroy of an unknown handle,
fails with `InvalidSessionError` rather than faulting (spec 6). -/
def st_session_destroy (E : Engine) (h : Nat) : Except STError Engine :=
  match lookupSlot E h with
  | some (.live _) => .ok (setSlot E h .destroyed)
  | _ => .error .InvalidSessionError

/-- Modelled from the spec: magnet parsing (spec 4.2): a well-formed magnet
URI carries the `magnet:` scheme; the parsed remainder is the underlying
torrent identity used for duplicate detection. -/
def magnetScheme : List Char := "magnet:".data

def parseMagnet (uri : String) : Option String :=
  if uri.data.take 7 = magnetScheme then some (String.mk (uri.data.drop 7))
  else none

/-- A freshly registered Torrent Entry: `Checking` state, zero progress,
zero counters, display name still unresolved (spec 4.2, spec 8). -/
def freshEntry (key : String) (ident : Nat) : TorrentEntry :=
  { identity := ident
    magnetKey := key
    display_name := ""
    progress := 0
    total_wanted := 0
    total_wanted_done := 0
    download_rate := 0
    upload_rate := 0
    num_peers := 0
    num_seeds := 0
    state := .checking }

/-- Modelled from the spec: the fallible core of `add` (spec 4.2):
`InvalidSessionError` on a destroyed/unknown handle, `ParseError` on a
malformed magnet URI, `DuplicateError` if the underlying identity is
already registered, `FilesystemError` if the save path is unusable;
on success the new entry is appended to the registry (tail of the fixed
insertion order). -/
def addMagnetCore (env : Env) (E : Engine) (h : Nat) (uri sp : String) :
    Except STError Engine :=
  match lookupSlot E h with
  | some (.live s) =>
    match parseMagnet uri with
    | none => .error .ParseError
    | some key =>
      if s.entries.any (fun e => e.magnetKey = key) then .error .DuplicateError
      else if !env.pathUsable sp then .error .FilesystemError
      else
        .ok (setSlot E h (.live
          { entries := s.entries ++ [freshEntry key s.nextIdentity]
            heldSnapshot := s.heldSnapshot
            nextIdentity := s.nextIdentity + 1 }))
  | _ => .error .InvalidSessionError

/-- What a failing operation leaves in the caller-owned bounded error
buffer: either buffer content (a null-terminated C string, modelled as
its character list), or a generic fallback report when the buffer extent
is zero or negative (spec 4.5); `untouched` on success. -/
inductive ErrReport where
  | untouched
  | buffer (content : List Char)
  | fallback (msg : List Char)
  deriving DecidableEq, Repr

def fallbackMsg : List Char := "torrent error".data

/-- Modelled from the spec: the Error Channel copy step (spec 4.5): the
fully composed message is copy-truncated once to at most `len - 1`
characters plus the terminator; a zero or negative `len` yields the
generic fallback report with no write into the buffer. -/
def writeErrBuf (msg : List Char) (len : Int) : ErrReport :=
  if len ≤ 0 then .fallback fallbackMsg
  else .buffer (msg.take (len - 1).toNat)

/-- Modelled from the spec: the composed error text for each error class
(spec 7): the full message is composed first, then copied once. -/
def errorMessage : STError → List Char
  | .ConfigurationError => "invalid listen port range".data
  | .InvalidSessionError => "operation on a destroyed or unknown session".data
  | .ParseError => "malformed magnet link".data
  | .DuplicateError => "torrent already present in session".data
  | .FilesystemError => "save path is not usable".data
  | .IndexOutOfRangeError => "index outside the held snapshot".data
  | .NoSnapshotError => "no snapshot has been taken".data

/-- Modelled from the spec: `st_add_magnet` (header lines 41-47): returns
a single `bool`; on failure it returns `false`, leaves the engine
unchanged and reports the composed error text through the bounded buffer
(spec 4.5); on success it returns `true` with the new entry registered
immediately (spec 4.2). -/
def st_add_magnet (env : Env) (E : Engine) (h : Nat) (uri sp : String)
    (errLen : Int) : Bool × Engine × ErrReport :=
  match addMagnetCore env E h uri sp with
  | .ok E' => (true, E', .untouched)
  | .error e => (false, E, writeErrBuf (errorMessage e) errLen)

/-- The pairs (captured status, captured display name) a snapshot copies:
the first `n` entries of the fixed insertion order (truncation drops only
from the tail, spec 4.4). -/
def snapPairs (s : SessionState) (n : Nat) : List (STTorrentStatus × String) :=
  (s.entries.take n).map (fun e => (statusOf e, e.display_name))

/-- Modelled from the spec: `st_get_torrents` (header lines 49-50,
spec 4.4 `take_snapshot`): copies up to `max_items` entries' current
values, in the fixed order, into a new held Snapshot, replacing the
previous one; returns the count written and the copied status records.
On a destroyed/unknown handle it fails with `InvalidSessionError`. -/
def st_get_torrents (E : Engine) (h : Nat) (max_items : Int) :
    Except STError (Engine × Int × List STTorrentStatus) :=
  match lookupSlot E h with
  | some (.live s) =>
    .ok (setSlot E h (.live { s with heldSnapshot := some (snapPairs s max_items.toNat) }),
         ((s.entries.take max_items.toNat).length : Int),
         (s.entries.take max_items.toNat).map statusOf)
  | _ => .error .InvalidSessionError

def blankStatus : STTorrentStatus :=
  { progress := 0, total_wanted := 0, total_wanted_done := 0,
    download_rate := 0, upload_rate := 0, num_peers := 0, num_seeds := 0,
    state := .checking, is_seeding := false, is_paused := false,
    has_error := false }

/-- Modelled from the spec: `st_get_torrent_name` (header lines 52-53,
spec 4.4 `name_at`): answered from the currently held Snapshot, never
from live entry state; `NoSnapshotError` before any snapshot,
`IndexOutOfRangeError` outside `[0, count)` of the held Snapshot,
`InvalidSessionError` on a destroyed/unknown handle. -/
def nameFromSnap (held : Option (List (STTorrentStatus × String)))
    (index : Int) : Except STError String :=
  match held with
  | some snap =>
    if 0 ≤ index ∧ index < (snap.length : Int) then
      .ok (snap.getD index.toNat (blankStatus, "")).2
    else .error .IndexOutOfRangeError
  | none => .error .NoSnapshotError

def st_get_torrent_name (E : Engine) (h : Nat) (index : Int) :
    Except STError String :=
  match lookupSlot E h with
  | some (.live s) => nameFromSnap s.heldSnapshot index
  | _ => .error .InvalidSessionError

/-- Modelled from the spec: the engine-originated events the Download
Engine Adapter applies to a Torrent Entry (spec 4.3): state transition,
progress update (with the instantaneous rates), peer count change,
metadata resolved, error raised. -/
inductive EngineEvent where
  | stateTransition (t : STState)
  | progressUpdate (p : Rat) (wanted done drate urate : Int)
  | peerCountChange (peers seeds : Int)
  | metadataResolved (name : String)
  | errorRaised

/-- The legal transitions of the entry state machine (spec 4.1). -/
def legalTransition : STState → STState → Bool
  | .checking, .downloading => true
  | .checking, .seeding => true
  | .checking, .error => true
  | .downloading, .finished => true
  | .downloading, .paused => true
  | .downloading, .error => true
  | .finished, .seeding => true
  | .seeding, .paused => true
  | .seeding, .error => true
  | .paused, .downloading => true
  | .paused, .seeding => true
  | .error, .checking => true
  | _, _ => false

/-- Rate fields are zeroed while paused or checking (spec 4.1). -/
def ratesZeroed (t : STState) : Bool :=
  decide (t = STState.paused) || decide (t = STState.checking)

/-- Modelled from the spec: the adapter applies one event to one entry,
keeping the data-model invariants (spec 3): progress clamped to [0, 1],
`0 <= total_wanted_done <= total_wanted`, non-negative peer/seed counts,
non-negative rates (spec 9), only legal state transitions, rates zeroed
while paused or checking. -/
def applyEvent (e : TorrentEntry) : EngineEvent → TorrentEntry
  | .stateTransition t =>
    if legalTransition e.state t then
      { e with state := t
               download_rate := if ratesZeroed t then 0 else e.download_rate
               upload_rate := if ratesZeroed t then 0 else e.upload_rate }
    else e
  | .progressUpdate p wanted done drate urate =>
    { e with progress := max 0 (min 1 p)
             total_wanted := max 0 wanted
             total_wanted_done := max 0 (min (max 0 wanted) done)
             download_rate := if ratesZeroed e.state then 0 else max 0 drate
             upload_rate := if ratesZeroed e.state then 0 else max 0 urate }
  | .peerCountChange peers seeds =>
    { e with num_peers := max 0 peers, num_seeds := max 0 seeds }
  | .metadataResolved name => { e with display_name := name }
  | .errorRaised =>
    if legalTransition e.state .error then { e with state := .error } else e

/-- The adapter's per-entry dispatch: only the entry with the event's
identity is updated (updates to one entry are serialized, spec 4.3). -/
def bumpEntry (ident : Nat) (ev : EngineEvent) (e : TorrentEntry) : TorrentEntry :=
  if e.identity = ident then applyEvent e ev else e

/-- Modelled from the spec: an engine callback keyed by handle and entry
identity; a callback arriving after destroy is a no-op (spec 5). -/
def applyEngineEvent (E : Engine) (h : Nat) (ident : Nat) (ev : EngineEvent) :
    Engine :=
  match lookupSlot E h with
  | some (.live s) =>
    setSlot E h (.live { s with entries := s.entries.map (bumpEntry ident ev) })
  | _ => E

/-- The engine states reachable through the modelled boundary operations
and asynchronous adapter events, from the empty handle table. -/
inductive Reachable (env : Env) : Engine → Prop where
  | init : Reachable env emptyEngine
  | create {E E' : Engine} {ps pe hdl : Nat} :
      Reachable env E → st_session_create env E ps pe = .ok (E', hdl) →
      Reachable env E'
  | destroy {E E' : Engine} {h : Nat} :
      Reachable env E → st_session_destroy E h = .ok E' → Reachable env E'
  | add {E E' : Engine} {h : Nat} {uri sp : String} {len : Int} {b : Bool}
      {r : ErrReport} :
      Reachable env E → st_add_magnet env E h uri sp len = (b, E', r) →
      Reachable env E'
  | snap {E E' : Engine} {h : Nat} {k n : Int} {out : List STTorrentStatus} :
      Reachable env E → st_get_torrents E h k = .ok (E', n, out) →
      Reachable env E'
  | event {E : Engine} (h ident : Nat) (ev : EngineEvent) :
      Reachable env E → Reachable env (applyEngineEvent E h ident ev)

/-- The record invariants of a Torrent Entry (spec 3). -/
def EntryWF (e : TorrentEntry) : Prop :=
  0 ≤ e.total_wanted_done ∧ e.total_wanted_done ≤ e.total_wanted ∧
  0 ≤ e.num_peers ∧ 0 ≤ e.num_seeds ∧ 0 ≤ e.progress ∧ e.progress ≤ 1

instance (e : TorrentEntry) : Decidable (EntryWF e) := by
  unfold EntryWF; infer_instance

/-- The record invariants of an `STTorrentStatus` (spec 3, spec 4.1):
byte-count and count bounds, progress in [0, 1], the state drawn from the
closed set with the three booleans as projections of it. -/
def StatusWF (st : STTorrentStatus) : Prop :=
  0 ≤ st.total_wanted_done ∧ st.total_wanted_done ≤ st.total_wanted ∧
  0 ≤ st.num_peers ∧ 0 ≤ st.num_seeds ∧
  0 ≤ st.progress ∧ st.progress ≤ 1 ∧
  (st.has_error = true ↔ st.state = STState.error) ∧
  (st.is_seeding = true ↔ st.state = STState.seeding) ∧
  (st.is_paused = true ↔ st.state = STState.paused)

instance (st : STTorrentStatus) : Decidable (StatusWF st) := by
  unfold StatusWF; infer_instance

/-- All live sessions of the table hold only invariant-respecting entries. -/
def EngineWF (E : Engine) : Prop :=
  ∀ p ∈ E.slots, ∀ s : SessionState, p.2 = SessionSlot.live s →
    ∀ e ∈ s.entries, EntryWF e

/-- The underlying torrent identity a successful parse extracts from a
magnet URI (the text after the `magnet:` scheme). -/
def magnetKeyOf (uri : String) : String := String.mk (uri.data.drop 7)

/-- The engine after a snapshot call (the engine component of a successful
`st_get_torrents`; the engine itself if the call failed). -/
def afterSnap (E : Engine) (h : Nat) (K : Int) : Engine :=
  match st_get_torrents E h K with
  | .ok t => t.1
  | .error _ => E

/-- The engine produced by a successful `st_session_create` on `E`. -/
def createdEngine (E : Engine) : Engine :=
  { slots := (E.nextHandle, .live initialSession) :: E.slots,
    nextHandle := E.nextHandle + 1 }

/-! Concrete engines used to instantiate the theorems below. -/

def envAll : Env := { canBind := fun _ => true, pathUsable := fun _ => true }

def envNone : Env := { canBind := fun _ => false, pathUsable := fun _ => true }

def E1c : Engine := { slots := [(0, .live initialSession)], nextHandle := 1 }

def sessAdd : SessionState :=
  { entries := [freshEntry "aaa" 0], heldSnapshot := none, nextIdentity := 1 }

def Eadd : Engine := { slots := [(0, .live sessAdd)], nextHandle := 1 }

def snapAdd : List (STTorrentStatus × String) :=
  [(statusOf (freshEntry "aaa" 0), "")]

def sessSnap : SessionState :=
  { entries := [freshEntry "aaa" 0], heldSnapshot := some snapAdd,
    nextIdentity := 1 }

def Esnap : Engine := { slots := [(0, .live sessSnap)], nextHandle := 1 }

def EaddCex : Engine := (st_add_magnet envAll E1c 0 "magnet:aaa" "/d" 64).2.1

def Edest : Engine := { slots := [(0, .destroyed)], nextHandle := 1 }

/-! ### Helper lemmas about the handle table -/

theorem lookupSlots_setSlots_self (l : List (Nat × SessionSlot)) (h : Nat)
    (v w : SessionSlot) (hl : lookupSlots l h = some w) :
    lookupSlots (setSlots l h v) h = some v := by
  induction l with
  | nil => simp [lookupSlots] at hl
  | cons p rest ih =>
    by_cases hp : p.1 = h
    · simp [lookupSlots, setSlots, hp]
    · simp only [lookupSlots, setSlots, hp, if_false, if_neg hp] at hl ⊢
      exact ih hl

theorem lookupSlots_mem (l : List (Nat × SessionSlot)) (h : Nat)
    (w : SessionSlot) (hl : lookupSlots l h = some w) : (h, w) ∈ l := by
  induction l with
  | nil => simp [lookupSlots] at hl
  | cons p rest ih =>
    by_cases hp : p.1 = h
    · simp only [lookupSlots, if_pos hp] at hl
      injection hl with hl
      have hpw : (h, w) = p := by cases p; simp_all
      rw [hpw]
      exact List.mem_cons_self _ _
    · simp only [lookupSlots, if_neg hp] at hl
      exact List.mem_cons_of_mem _ (ih hl)

theorem mem_setSlots (l : List (Nat × SessionSlot)) (h : Nat)
    (v : SessionSlot) (p : Nat × SessionSlot) (hp : p ∈ setSlots l h v) :
    p ∈ l ∨ p.2 = v := by
  induction l with
  | nil => simp [setSlots] at hp
  | cons q rest ih =>
    by_cases hq : q.1 = h
    · simp only [setSlots, if_pos hq] at hp
      rcases List.mem_cons.mp hp with h1 | h1
      · right; rw [h1]
      · rcases ih h1 with h2 | h2
        · exact Or.inl (List.mem_cons_of_mem _ h2)
        · exact Or.inr h2
    · simp only [setSlots, if_neg hq] at hp
      rcases List.mem_cons.mp hp with h1 | h1
      · exact Or.inl (List.mem_cons.mpr (Or.inl h1))
      · rcases ih h1 with h2 | h2
        · exact Or.inl (List.mem_cons_of_mem _ h2)
        · exact Or.inr h2

theorem lookupSlot_setSlot_self (E : Engine) (h : Nat) (v w : SessionSlot)
    (hl : lookupSlot E h = some w) : lookupSlot (setSlot E h v) h = some v :=
  lookupSlots_setSlots_self E.slots h v w hl

/-! ### Characterisation lemmas for the boundary operations -/

theorem st_get_torrents_live (E : Engine) (h : Nat) (s : SessionState)
    (K : Int) (hs : lookupSlot E h = some (.live s)) :
    st_get_torrents E h K =
      .ok (setSlot E h (.live { s with heldSnapshot := some (snapPairs s K.toNat) }),
           ((s.entries.take K.toNat).length : Int),
           (s.entries.take K.toNat).map statusOf) := by
  unfold st_get_torrents
  rw [hs]

theorem st_get_torrents_ok_inv (E E' : Engine) (h : Nat) (K n : Int)
    (out : List STTorrentStatus)
    (hok : st_get_torrents E h K = .ok (E', n, out)) :
    ∃ s, lookupSlot E h = some (.live s) ∧
      E' = setSlot E h (.live { s with heldSnapshot := some (snapPairs s K.toNat) }) ∧
      n = ((s.entries.take K.toNat).length : Int) ∧
      out = (s.entries.take K.toNat).map statusOf := by
  unfold st_get_torrents at hok
  cases hl : lookupSlot E h with
  | none => rw [hl] at hok; exact absurd hok (by simp)
  | some sl =>
    cases sl with
    | destroyed => rw [hl] at hok; exact absurd hok (by simp)
    | live s =>
      rw [hl] at hok
      simp only [Except.ok.injEq, Prod.mk.injEq] at hok
      exact ⟨s, rfl, hok.1.symm, hok.2.1.symm, hok.2.2.symm⟩

theorem st_session_destroy_ok_inv (E E' : Engine) (h : Nat)
    (hd : st_session_destroy E h = .ok E') :
    ∃ s, lookupSlot E h = some (.live s) ∧ E' = setSlot E h .destroyed := by
  unfold st_session_destroy at hd
  cases hl : lookupSlot E h with
  | none => rw [hl] at hd; exact absurd hd (by simp)
  | some sl =>
    cases sl with
    | destroyed => rw [hl] at hd; exact absurd hd (by simp)
    | live s =>
      rw [hl] at hd
      simp only [Except.ok.injEq] at hd
      exact ⟨s, rfl, hd.symm⟩

theorem parseMagnet_some_inv (uri key : String)
    (hp : parseMagnet uri = some key) : key = magnetKeyOf uri := by
  unfold parseMagnet at hp
  split at hp
  · injection hp with hp
    rw [← hp]; rfl
  · exact absurd hp (by simp)

theorem addMagnetCore_ok_inv (env : Env) (E : Engine) (h : Nat)
    (uri sp : String) (E' : Engine)
    (hok : addMagnetCore env E h uri sp = .ok E') :
    ∃ s, lookupSlot E h = some (.live s) ∧
      E' = setSlot E h (.live
        { entries := s.entries ++ [freshEntry (magnetKeyOf uri) s.nextIdentity]
          heldSnapshot := s.heldSnapshot
          nextIdentity := s.nextIdentity + 1 }) := by
  unfold addMagnetCore at hok
  cases hl : lookupSlot E h with
  | none => rw [hl] at hok; exact absurd hok (by simp)
  | some sl =>
    cases sl with
    | destroyed => rw [hl] at hok; exact absurd hok (by simp)
    | live s =>
      rw [hl] at hok
      cases hp : parseMagnet uri with
      | none => rw [hp] at hok; exact absurd hok (by simp)
      | some key =>
        rw [hp] at hok
        simp only at hok
        split at hok
        · exact absurd hok (by simp)
        · split at hok
          · exact absurd hok (by simp)
          · simp only [Except.ok.injEq] at hok
            refine ⟨s, rfl, ?_⟩
            rw [← hok, parseMagnet_some_inv uri key hp]

/-! ### The data-model invariants are maintained -/

theorem entryWF_freshEntry (key : String) (ident : Nat) :
    EntryWF (freshEntry key ident) := by
  simp [EntryWF, freshEntry]

theorem entryWF_applyEvent (e : TorrentEntry) (ev : EngineEvent)
    (he : EntryWF e) : EntryWF (applyEvent e ev) := by
  obtain ⟨h1, h2, h3, h4, h5, h6⟩ := he
  cases ev with
  | stateTransition t =>
    simp only [applyEvent]
    split <;> exact ⟨h1, h2, h3, h4, h5, h6⟩
  | progressUpdate p wanted done drate urate =>
    simp only [applyEvent]
    exact ⟨le_max_left 0 _, max_le (le_max_left 0 wanted) (min_le_left _ _),
           h3, h4, le_max_left 0 _, max_le zero_le_one (min_le_left 1 p)⟩
  | peerCountChange peers seeds =>
    simp only [applyEvent]
    exact ⟨h1, h2, le_max_left 0 peers, le_max_left 0 seeds, h5, h6⟩
  | metadataResolved name =>
    simp only [applyEvent]
    exact ⟨h1, h2, h3, h4, h5, h6⟩
  | errorRaised =>
    simp only [applyEvent]
    split <;> exact ⟨h1, h2, h3, h4, h5, h6⟩

theorem statusWF_statusOf (e : TorrentEntry) (he : EntryWF e) :
    StatusWF (statusOf e) := by
  obtain ⟨h1, h2, h3, h4, h5, h6⟩ := he
  refine ⟨h1, h2, h3, h4, h5, h6, ?_, ?_, ?_⟩ <;> simp [statusOf]

theorem engineWF_lookup (E : Engine) (h : Nat) (s : SessionState)
    (hE : EngineWF E) (hl : lookupSlot E h = some (.live s)) :
    ∀ e ∈ s.entries, EntryWF e :=
  hE (h, .live s) (lookupSlots_mem E.slots h _ hl) s rfl

theorem engineWF_setSlot (E : Engine) (h : Nat) (v : SessionSlot)
    (hE : EngineWF E)
    (hv : ∀ s : SessionState, v = SessionSlot.live s → ∀ e ∈ s.entries, EntryWF e) :
    EngineWF (setSlot E h v) := by
  intro p hp s hps e hei
  rcases mem_setSlots E.slots h v p hp with hmem | hval
  · exact hE p hmem s hps e hei
  · exact hv s (hval ▸ hps) e hei

theorem entryWF_bumpEntry (ident : Nat) (ev : EngineEvent) (e : TorrentEntry)
    (he : EntryWF e) : EntryWF (bumpEntry ident ev e) := by
  unfold bumpEntry
  split
  · exact entryWF_applyEvent e ev he
  · exact he

theorem engineWF_reachable (env : Env) (E : Engine) (hr : Reachable env E) :
    EngineWF E := by
  induction hr with
  | init => intro p hp; simp [emptyEngine] at hp
  | create hr hc ih =>
    unfold st_session_create at hc
    split at hc
    · exact absurd hc (by simp)
    · split at hc
      · exact absurd hc (by simp)
      · simp only [Except.ok.injEq, Prod.mk.injEq] at hc
        obtain ⟨hE', _⟩ := hc
        rw [← hE']
        intro p hp s hps e hei
        rcases List.mem_cons.mp hp with h1 | h1
        · rw [h1] at hps
          simp only at hps
          injection hps with hps
          rw [← hps] at hei
          simp [initialSession] at hei
        · exact ih p h1 s hps e hei
  | destroy hr hd ih =>
    obtain ⟨s, hl, hE'⟩ := st_session_destroy_ok_inv _ _ _ hd
    rw [hE']
    exact engineWF_setSlot _ _ _ ih (fun s' hs' => by cases hs')
  | add hr ha ih =>
    unfold st_add_magnet at ha
    cases hcore : addMagnetCore _ _ _ _ _ with
    | error e0 =>
      rw [hcore] at ha
      simp only [Prod.mk.injEq] at ha
      rw [← ha.2.1]
      exact ih
    | ok E2 =>
      rw [hcore] at ha
      simp only [Prod.mk.injEq] at ha
      rw [← ha.2.1]
      obtain ⟨s, hl, hE2⟩ := addMagnetCore_ok_inv _ _ _ _ _ _ hcore
      rw [hE2]
      apply engineWF_setSlot _ _ _ ih
      intro s' hs' e hei
      injection hs' with hs'
      rw [← hs'] at hei
      simp only at hei
      rcases List.mem_append.mp hei with h1 | h1
      · exact engineWF_lookup _ _ _ ih hl e h1
      · rw [List.mem_singleton.mp h1]
        exact entryWF_freshEntry _ _
  | snap hr hsn ih =>
    obtain ⟨s, hl, hE', _, _⟩ := st_get_torrents_ok_inv _ _ _ _ _ _ hsn
    rw [hE']
    apply engineWF_setSlot _ _ _ ih
    intro s' hs' e hei
    injection hs' with hs'
    rw [← hs'] at hei
    exact engineWF_lookup _ _ _ ih hl e hei
  | event h ident ev hr ih =>
    unfold applyEngineEvent
    cases hl : lookupSlot _ h with
    | none => exact ih
    | some sl =>
      cases sl with
      | destroyed => exact ih
      | live s =>
        apply engineWF_setSlot _ _ _ ih
        intro s' hs' e hei
        injection hs' with hs'
        rw [← hs'] at hei
        simp only at hei
        rcases List.mem_map.mp hei with ⟨e0, he0, hupd⟩
        rw [← hupd]
        exact entryWF_bumpEntry _ _ _ (engineWF_lookup _ _ _ ih hl e0 he0)

/-! ### Claim theorems -/

/-- Claim C1: for every session and every `K`, calling `st_get_torrents`
with `max_items = K` twice with no torrent added, removed, or mutated
between the two calls yields identical ordered output sequences and
identical counts both times. -/
theorem snapshot_idempotent (E E₁ E₂ : Engine) (h : Nat) (K n₁ n₂ : Int)
    (out₁ out₂ : List STTorrentStatus)
    (h₁ : st_get_torrents E h K = .ok (E₁, n₁, out₁))
    (h₂ : st_get_torrents E₁ h K = .ok (E₂, n₂, out₂)) :
    out₁ = out₂ ∧ n₁ = n₂ := by
  obtain ⟨s, hl, hE₁, hn₁, hout₁⟩ := st_get_torrents_ok_inv _ _ _ _ _ _ h₁
  have hl₁ : lookupSlot E₁ h =
      some (.live { s with heldSnapshot := some (snapPairs s K.toNat) }) := by
    rw [hE₁]
    exact lookupSlot_setSlot_self E h _ _ hl
  rw [st_get_torrents_live E₁ h _ K hl₁] at h₂
  simp only [Except.ok.injEq, Prod.mk.injEq] at h₂
  exact ⟨by rw [hout₁, ← h₂.2.2], by rw [hn₁, ← h₂.2.1]⟩

/-- Witness for C1 at a concrete one-torrent session. -/
theorem snapshot_idempotent_witness :
    [statusOf (freshEntry "aaa" 0)] = [statusOf (freshEntry "aaa" 0)] ∧
    (1 : Int) = 1 :=
  snapshot_idempotent Eadd Esnap Esnap 0 5 1 1
    [statusOf (freshEntry "aaa" 0)] [statusOf (freshEntry "aaa" 0)]
    (by decide) (by decide)

theorem afterSnap_eq (E : Engine) (h : Nat) (K : Int) (s : SessionState)
    (hs : lookupSlot E h = some (.live s)) :
    afterSnap E h K =
      setSlot E h (.live { s with heldSnapshot := some (snapPairs s K.toNat) }) := by
  unfold afterSnap
  rw [st_get_torrents_live E h s K hs]

/-- Claim C2: with `C` live torrents and `K < C`, `st_get_torrents` with
`max_items = K` returns exactly `K` entries and they are the first `K` of
the fixed total order (truncation drops only from the tail); a subsequent
call with `max_items = C` returns all `C` entries. -/
theorem snapshot_truncation (E : Engine) (h : Nat) (s : SessionState)
    (K : Nat) (hs : lookupSlot E h = some (.live s))
    (hK : K < s.entries.length) :
    st_get_torrents E h (K : Int) =
      .ok (afterSnap E h (K : Int), (K : Int),
           (s.entries.map statusOf).take K) ∧
    st_get_torrents (afterSnap E h (K : Int)) h (s.entries.length : Int) =
      .ok (afterSnap (afterSnap E h (K : Int)) h (s.entries.length : Int),
           (s.entries.length : Int), s.entries.map statusOf) := by
  have h1 := st_get_torrents_live E h s (K : Int) hs
  have hA := afterSnap_eq E h (K : Int) s hs
  have hKt : ((K : Int)).toNat = K := rfl
  have hlen : (s.entries.take K).length = K := by
    rw [List.length_take]
    omega
  have hl₁ : lookupSlot (afterSnap E h (K : Int)) h =
      some (.live { s with heldSnapshot := some (snapPairs s ((K : Int)).toNat) }) := by
    rw [hA]
    exact lookupSlot_setSlot_self E h _ _ hs
  constructor
  · rw [h1, hA]
    simp only [Except.ok.injEq, Prod.mk.injEq]
    refine ⟨trivial, ?_, ?_⟩
    · show ((s.entries.take ((K : Int)).toNat).length : Int) = (K : Int)
      rw [hKt, hlen]
    · show (s.entries.take ((K : Int)).toNat).map statusOf
        = (s.entries.map statusOf).take K
      rw [hKt, List.map_take]
  · have h2 := st_get_torrents_live (afterSnap E h (K : Int)) h _
      (s.entries.length : Int) hl₁
    have hA₂ := afterSnap_eq (afterSnap E h (K : Int)) h
      (s.entries.length : Int) _ hl₁
    rw [h2, hA₂]
    simp only [Except.ok.injEq, Prod.mk.injEq]
    have hCt : ((s.entries.length : Int)).toNat = s.entries.length := rfl
    refine ⟨trivial, ?_, ?_⟩
    · show ((s.entries.take ((s.entries.length : Int)).toNat).length : Int)
        = (s.entries.length : Int)
      rw [hCt, List.take_length]
    · show (s.entries.take ((s.entries.length : Int)).toNat).map statusOf
        = s.entries.map statusOf
      rw [hCt, List.take_length]

/-- Witness for C2 with one live torrent and `K = 0`. -/
theorem snapshot_truncation_witness :
    st_get_torrents Eadd 0 ((0 : Nat) : Int) =
      .ok (afterSnap Eadd 0 ((0 : Nat) : Int), ((0 : Nat) : Int),
           (sessAdd.entries.map statusOf).take 0) ∧
    st_get_torrents (afterSnap Eadd 0 ((0 : Nat) : Int)) 0
        (sessAdd.entries.length : Int) =
      .ok (afterSnap (afterSnap Eadd 0 ((0 : Nat) : Int)) 0
             (sessAdd.entries.length : Int),
           (sessAdd.entries.length : Int), sessAdd.entries.map statusOf) :=
  snapshot_truncation Eadd 0 sessAdd 0 (by decide) (by decide)

/-- Claim C3: `st_get_torrent_name` fails with `NoSnapshotError` before any
snapshot was taken on the session, fails with `IndexOutOfRangeError` when
the index is outside `[0, count)` of the held snapshot, and on a valid
index returns the display name captured at snapshot time (possibly empty)
— answered from the held snapshot even after live entries mutate. -/
theorem name_lookup_contract (E : Engine) (h : Nat) (s : SessionState)
    (hs : lookupSlot E h = some (.live s)) :
    (s.heldSnapshot = none →
      ∀ i : Int, st_get_torrent_name E h i = .error .NoSnapshotError) ∧
    (∀ (snap : List (STTorrentStatus × String)) (i : Int),
      s.heldSnapshot = some snap → i < 0 ∨ (snap.length : Int) ≤ i →
      st_get_torrent_name E h i = .error .IndexOutOfRangeError) ∧
    (∀ (snap : List (STTorrentStatus × String)) (i : Int),
      s.heldSnapshot = some snap → 0 ≤ i → i < (snap.length : Int) →
      st_get_torrent_name E h i = .ok (snap.getD i.toNat (blankStatus, "")).2) ∧
    (∀ (snap : List (STTorrentStatus × String)) (i : Int) (ident : Nat)
      (ev : EngineEvent),
      s.heldSnapshot = some snap → 0 ≤ i → i < (snap.length : Int) →
      st_get_torrent_name (applyEngineEvent E h ident ev) h i =
        .ok (snap.getD i.toNat (blankStatus, "")).2) := by
  refine ⟨?_, ?_, ?_, ?_⟩
  · intro hnone i
    unfold st_get_torrent_name
    rw [hs]
    show nameFromSnap s.heldSnapshot i = _
    rw [hnone]
    rfl
  · intro snap i hsnap hout
    unfold st_get_torrent_name
    rw [hs]
    show nameFromSnap s.heldSnapshot i = _
    rw [hsnap]
    simp only [nameFromSnap]
    rw [if_neg (show ¬(0 ≤ i ∧ i < ((snap.length : Int))) by omega)]
  · intro snap i hsnap h0 hlt
    unfold st_get_torrent_name
    rw [hs]
    show nameFromSnap s.heldSnapshot i = _
    rw [hsnap]
    simp only [nameFromSnap]
    rw [if_pos ⟨h0, hlt⟩]
  · intro snap i ident ev hsnap h0 hlt
    have hl' : lookupSlot (applyEngineEvent E h ident ev) h =
        some (.live { s with entries := s.entries.map (bumpEntry ident ev) }) := by
      unfold applyEngineEvent
      rw [hs]
      exact lookupSlot_setSlot_self E h _ _ hs
    unfold st_get_torrent_name
    rw [hl']
    show nameFromSnap s.heldSnapshot i = _
    rw [hsnap]
    simp only [nameFromSnap]
    rw [if_pos ⟨h0, hlt⟩]

/-- Witness for C3 on the concrete snapshotted session. -/
theorem name_lookup_contract_witness :
    st_get_torrent_name E1c 0 0 = .error .NoSnapshotError ∧
    st_get_torrent_name Esnap 0 1 = .error .IndexOutOfRangeError ∧
    st_get_torrent_name Esnap 0 (-1) = .error .IndexOutOfRangeError ∧
    st_get_torrent_name Esnap 0 0 = .ok (snapAdd.getD 0 (blankStatus, "")).2 ∧
    st_get_torrent_name
        (applyEngineEvent Esnap 0 0 (.metadataResolved "resolved")) 0 0 =
      .ok (snapAdd.getD 0 (blankStatus, "")).2 :=
  have h1 := name_lookup_contract E1c 0 initialSession (by decide)
  have h2 := name_lookup_contract Esnap 0 sessSnap (by decide)
  ⟨h1.1 rfl 0, h2.2.1 snapAdd 1 rfl (by decide), h2.2.1 snapAdd (-1) rfl (by decide),
   h2.2.2.1 snapAdd 0 rfl (by decide) (by decide),
   h2.2.2.2 snapAdd 0 0 (.metadataResolved "resolved") rfl (by decide) (by decide)⟩

/-- Claim C4: after `st_session_destroy` succeeds on a handle, every further
operation on that handle — a second destroy, `st_add_magnet`,
`st_get_torrents`, `st_get_torrent_name` — fails with
`InvalidSessionError`; none of them silently succeeds or no-ops. -/
theorem destroyed_session_rejects (E E' : Engine) (h : Nat)
    (hd : st_session_destroy E h = .ok E') :
    st_session_destroy E' h = .error .InvalidSessionError ∧
    (∀ (env : Env) (uri sp : String),
      addMagnetCore env E' h uri sp = .error .InvalidSessionError) ∧
    (∀ (env : Env) (uri sp : String) (len : Int),
      st_add_magnet env E' h uri sp len =
        (false, E', writeErrBuf (errorMessage .InvalidSessionError) len)) ∧
    (∀ K : Int, st_get_torrents E' h K = .error .InvalidSessionError) ∧
    (∀ i : Int, st_get_torrent_name E' h i = .error .InvalidSessionError) := by
  obtain ⟨s, hl, hE'⟩ := st_session_destroy_ok_inv E E' h hd
  have hl' : lookupSlot E' h = some .destroyed := by
    rw [hE']
    exact lookupSlot_setSlot_self E h _ _ hl
  have hcore : ∀ (env : Env) (uri sp : String),
      addMagnetCore env E' h uri sp = .error .InvalidSessionError := by
    intro env uri sp
    unfold addMagnetCore
    rw [hl']
  refine ⟨?_, hcore, ?_, ?_, ?_⟩
  · unfold st_session_destroy
    rw [hl']
  · intro env uri sp len
    unfold st_add_magnet
    rw [hcore env uri sp]
  · intro K
    unfold st_get_torrents
    rw [hl']
  · intro i
    unfold st_get_torrent_name
    rw [hl']

/-- Witness for C4: destroy the concrete session, then hit every operation. -/
theorem destroyed_session_rejects_witness :
    st_session_destroy Edest 0 = .error .InvalidSessionError ∧
    st_get_torrents Edest 0 5 = .error .InvalidSessionError ∧
    st_get_torrent_name Edest 0 0 = .error .InvalidSessionError ∧
    st_add_magnet envAll Edest 0 "magnet:bbb" "/d" 8 =
      (false, Edest, writeErrBuf (errorMessage .InvalidSessionError) 8) :=
  have hmain := destroyed_session_rejects Esnap Edest 0 (by decide)
  ⟨hmain.1, hmain.2.2.2.1 5, hmain.2.2.2.2 0,
   hmain.2.2.1 envAll "magnet:bbb" "/d" 8⟩

/-- Claim C5: for an error-buffer length `L >= 1`, a failing `st_add_magnet`
writes at most `L - 1` characters (plus the terminator) into the buffer,
and what it writes is a prefix of the composed message — the first bytes
are never lost, and the buffer never overflows. -/
theorem err_buffer_bounded (env : Env) (E : Engine) (h : Nat)
    (uri sp : String) (L : Int) (e : STError) (hL : 1 ≤ L)
    (hfail : addMagnetCore env E h uri sp = .error e) :
    st_add_magnet env E h uri sp L =
      (false, E, .buffer ((errorMessage e).take (L - 1).toNat)) ∧
    (((errorMessage e).take (L - 1).toNat).length : Int) ≤ L - 1 ∧
    (errorMessage e).take (L - 1).toNat ++ (errorMessage e).drop (L - 1).toNat
      = errorMessage e := by
  refine ⟨?_, ?_, List.take_append_drop _ _⟩
  · unfold st_add_magnet
    rw [hfail]
    show (false, E, writeErrBuf (errorMessage e) L) = _
    unfold writeErrBuf
    rw [if_neg (show ¬(L ≤ 0) by omega)]
  · rw [List.length_take]
    have ht : ((L - 1).toNat : Int) = L - 1 := Int.toNat_of_nonneg (by omega)
    omega

/-- Witness for C5: duplicate add with a 16-byte buffer truncates the
composed duplicate-error message to 15 characters. -/
theorem err_buffer_bounded_witness :
    st_add_magnet envAll Eadd 0 "magnet:aaa" "/d" 16 =
      (false, Eadd,
       .buffer ((errorMessage .DuplicateError).take ((16 : Int) - 1).toNat)) ∧
    (((errorMessage .DuplicateError).take ((16 : Int) - 1).toNat).length : Int)
      ≤ 16 - 1 ∧
    (errorMessage .DuplicateError).take ((16 : Int) - 1).toNat ++
        (errorMessage .DuplicateError).drop ((16 : Int) - 1).toNat
      = errorMessage .DuplicateError :=
  err_buffer_bounded envAll Eadd 0 "magnet:aaa" "/d" 16 .DuplicateError
    (by decide) (by decide)

/-- Counterexample to C6 as stated: a successful `st_add_magnet` whose very
next `st_get_torrents` call uses `max_items = 0` returns a count of `0` and
an empty sequence — the newly registered entry does not appear, because
truncation drops from the tail of the fixed order where new entries sit. -/
theorem add_next_snapshot_cex :
    (st_add_magnet envAll E1c 0 "magnet:aaa" "/d" 64).1 = true ∧
    st_get_torrents EaddCex 0 0 = .ok (afterSnap EaddCex 0 0, 0, []) := by
  decide

/-- Claim C6 (amended): after a successful `st_add_magnet`, the very next
`st_get_torrents` call whose `max_items` covers the live count returns the
newly registered entry's status at the tail of the fixed order, in
`Checking` state with zero progress; registration is immediate — the entry
is in the registry when `st_add_magnet` returns. -/
theorem add_registers_in_next_snapshot (env : Env) (E E' : Engine) (h : Nat)
    (uri sp : String) (L : Int) (r : ErrReport) (s : SessionState) (K : Int)
    (hs : lookupSlot E h = some (.live s))
    (hadd : st_add_magnet env E h uri sp L = (true, E', r))
    (hK : (s.entries.length : Int) + 1 ≤ K) :
    st_get_torrents E' h K =
      .ok (afterSnap E' h K, (s.entries.length : Int) + 1,
           s.entries.map statusOf ++
             [statusOf (freshEntry (magnetKeyOf uri) s.nextIdentity)]) ∧
    (statusOf (freshEntry (magnetKeyOf uri) s.nextIdentity)).state
      = STState.checking ∧
    (statusOf (freshEntry (magnetKeyOf uri) s.nextIdentity)).progress = 0 := by
  unfold st_add_magnet at hadd
  cases hcore : addMagnetCore env E h uri sp with
  | error e =>
    rw [hcore] at hadd
    simp at hadd
  | ok E₂ =>
    rw [hcore] at hadd
    simp only [Prod.mk.injEq, true_and] at hadd
    obtain ⟨hE', -⟩ := hadd
    obtain ⟨s₀, hl₀, hE₂⟩ := addMagnetCore_ok_inv env E h uri sp E₂ hcore
    rw [hs] at hl₀
    injection hl₀ with hl₀
    injection hl₀ with hl₀
    subst hl₀
    have hlE' : lookupSlot E' h = some (.live
        { entries := s.entries ++ [freshEntry (magnetKeyOf uri) s.nextIdentity]
          heldSnapshot := s.heldSnapshot
          nextIdentity := s.nextIdentity + 1 }) := by
      rw [← hE', hE₂]
      exact lookupSlot_setSlot_self E h _ _ hs
    have h1 := st_get_torrents_live E' h _ K hlE'
    have hA := afterSnap_eq E' h K _ hlE'
    have hlen : (s.entries ++ [freshEntry (magnetKeyOf uri) s.nextIdentity]).length
        = s.entries.length + 1 := by
      rw [List.length_append]
      rfl
    have htake : (s.entries ++ [freshEntry (magnetKeyOf uri) s.nextIdentity]).take K.toNat
        = s.entries ++ [freshEntry (magnetKeyOf uri) s.nextIdentity] := by
      apply List.take_of_length_le
      rw [hlen]
      omega
    refine ⟨?_, rfl, rfl⟩
    rw [h1, hA]
    simp only [Except.ok.injEq, Prod.mk.injEq]
    refine ⟨trivial, ?_, ?_⟩
    · show (((s.entries ++ [freshEntry (magnetKeyOf uri) s.nextIdentity]).take
          K.toNat).length : Int) = (s.entries.length : Int) + 1
      rw [htake, hlen]
      push_cast
      ring
    · show ((s.entries ++ [freshEntry (magnetKeyOf uri) s.nextIdentity]).take
          K.toNat).map statusOf
        = s.entries.map statusOf ++ [statusOf (freshEntry (magnetKeyOf uri) s.nextIdentity)]
      rw [htake, List.map_append]
      rfl

/-- Witness for the amended C6 on the concrete one-session engine. -/
theorem add_registers_in_next_snapshot_witness :
    st_get_torrents Eadd 0 1 =
      .ok (afterSnap Eadd 0 1, (initialSession.entries.length : Int) + 1,
           initialSession.entries.map statusOf ++
             [statusOf (freshEntry (magnetKeyOf "magnet:aaa")
                initialSession.nextIdentity)]) ∧
    (statusOf (freshEntry (magnetKeyOf "magnet:aaa")
        initialSession.nextIdentity)).state = STState.checking ∧
    (statusOf (freshEntry (magnetKeyOf "magnet:aaa")
        initialSession.nextIdentity)).progress = 0 :=
  add_registers_in_next_snapshot envAll E1c Eadd 0 "magnet:aaa" "/d" 64
    .untouched initialSession 1 (by decide) (by decide) (by decide)

/-- Claim C7: every `STTorrentStatus` record produced by `st_get_torrents`
on a reachable engine satisfies the record invariants:
`0 <= total_wanted_done <= total_wanted`, non-negative peer and seed
counts, progress in `[0, 1]`, and the three booleans are projections of
the single primary state. -/
theorem snapshot_status_invariants (env : Env) (E E' : Engine) (h : Nat)
    (K n : Int) (out : List STTorrentStatus) (hr : Reachable env E)
    (hsnap : st_get_torrents E h K = .ok (E', n, out)) :
    ∀ st ∈ out, StatusWF st := by
  obtain ⟨s, hl, -, -, hout⟩ := st_get_torrents_ok_inv _ _ _ _ _ _ hsnap
  intro st hst
  rw [hout] at hst
  rcases List.mem_map.mp hst with ⟨e, he, hse⟩
  rw [← hse]
  exact statusWF_statusOf e
    (engineWF_lookup _ _ _ (engineWF_reachable env E hr) hl e
      (List.take_subset _ _ he))

/-- Witness for C7 on a concretely reached engine (create, add, snapshot). -/
theorem snapshot_status_invariants_witness :
    StatusWF (statusOf (freshEntry "aaa" 0)) :=
  snapshot_status_invariants envAll Eadd Esnap 0 5 1
    [statusOf (freshEntry "aaa" 0)]
    (Reachable.add (Reachable.create Reachable.init
      (show st_session_create envAll emptyEngine 6881 6889 = .ok (E1c, 0)
        by decide))
      (show st_add_magnet envAll E1c 0 "magnet:aaa" "/d" 64 =
          (true, Eadd, .untouched)
        by decide))
    (by decide) (statusOf (freshEntry "aaa" 0)) (by decide)

/-- Claim C8: `st_session_create` validates `listen_port_start <=
listen_port_end` and fails with `ConfigurationError` whenever the range is
invalid or no port in the range can bind, returning no usable session; on
success it returns a usable session handle (a live empty session that
answers snapshots). -/
theorem session_create_contract (env : Env) (E : Engine) (ps pe : Nat) :
    (pe < ps → st_session_create env E ps pe = .error .ConfigurationError) ∧
    ((∀ p : Nat, ps ≤ p → p ≤ pe → env.canBind p = false) →
      st_session_create env E ps pe = .error .ConfigurationError) ∧
    (ps ≤ pe → (∃ p : Nat, ps ≤ p ∧ p ≤ pe ∧ env.canBind p = true) →
      st_session_create env E ps pe = .ok (createdEngine E, E.nextHandle) ∧
      lookupSlot (createdEngine E) E.nextHandle = some (.live initialSession) ∧
      st_get_torrents (createdEngine E) E.nextHandle 0 =
        .ok (afterSnap (createdEngine E) E.nextHandle 0, 0, [])) := by
  refine ⟨?_, ?_, ?_⟩
  · intro hlt
    unfold st_session_create
    rw [if_pos hlt]
  · intro hnone
    unfold st_session_create
    by_cases hlt : pe < ps
    · rw [if_pos hlt]
    · have hall : (List.range' ps (pe + 1 - ps)).all
          (fun p => !env.canBind p) = true := by
        rw [List.all_eq_true]
        intro p hp
        rw [List.mem_range'_1] at hp
        have hp2 : p ≤ pe := by omega
        simp [hnone p hp.1 hp2]
      rw [if_neg hlt, if_pos hall]
  · intro hle hex
    obtain ⟨p, hps, hpe, hbind⟩ := hex
    have hlt : ¬ pe < ps := by omega
    have hall : ¬ ((List.range' ps (pe + 1 - ps)).all
        (fun q => !env.canBind q) = true) := by
      rw [List.all_eq_true]
      intro hforall
      have hmem : p ∈ List.range' ps (pe + 1 - ps) := by
        rw [List.mem_range'_1]
        omega
      have hq := hforall p hmem
      rw [hbind] at hq
      simp at hq
    have hok : st_session_create env E ps pe =
        .ok (createdEngine E, E.nextHandle) := by
      unfold st_session_create
      rw [if_neg hlt, if_neg hall]
      rfl
    have hlook : lookupSlot (createdEngine E) E.nextHandle =
        some (.live initialSession) := by
      unfold createdEngine lookupSlot lookupSlots
      simp
    refine ⟨hok, hlook, ?_⟩
    have h1 := st_get_torrents_live (createdEngine E) E.nextHandle
      initialSession 0 hlook
    have hA := afterSnap_eq (createdEngine E) E.nextHandle 0
      initialSession hlook
    rw [h1, hA]
    rfl

/-- Witness for C8: an inverted range, an unbindable range, and a
successful creation on ports 6881-6889. -/
theorem session_create_contract_witness :
    st_session_create envAll emptyEngine 9 5 = .error .ConfigurationError ∧
    st_session_create envNone emptyEngine 5 9 = .error .ConfigurationError ∧
    st_session_create envAll emptyEngine 6881 6889 =
      .ok (createdEngine emptyEngine, emptyEngine.nextHandle) :=
  ⟨(session_create_contract envAll emptyEngine 9 5).1 (by decide),
   (session_create_contract envNone emptyEngine 5 9).2.1 (fun p _ _ => rfl),
   ((session_create_contract envAll emptyEngine 6881 6889).2.2 (by decide)
     ⟨6881, by decide, by decide, rfl⟩).1⟩

/-- Claim C9: a failing `st_add_magnet` with a zero or negative buffer
length reports the generic fallback message instead of writing into the
buffer; and for every buffer length the report is produced from the fully
composed error message by a single copy-truncate step. -/
theorem err_buffer_fallback (env : Env) (E : Engine) (h : Nat)
    (uri sp : String) (L : Int) (e : STError) (hL : L ≤ 0)
    (hfail : addMagnetCore env E h uri sp = .error e) :
    st_add_magnet env E h uri sp L = (false, E, .fallback fallbackMsg) ∧
    (∀ L' : Int, st_add_magnet env E h uri sp L' =
      (false, E, writeErrBuf (errorMessage e) L')) := by
  have hany : ∀ L' : Int, st_add_magnet env E h uri sp L' =
      (false, E, writeErrBuf (errorMessage e) L') := by
    intro L'
    unfold st_add_magnet
    rw [hfail]
  refine ⟨?_, hany⟩
  rw [hany L]
  unfold writeErrBuf
  rw [if_pos hL]

/-- Witness for C9: a malformed magnet with buffer lengths 0 and -3. -/
theorem err_buffer_fallback_witness :
    st_add_magnet envAll E1c 0 "not-a-magnet" "/d" 0 =
      (false, E1c, .fallback fallbackMsg) ∧
    st_add_magnet envAll E1c 0 "not-a-magnet" "/d" (-3) =
      (false, E1c, writeErrBuf (errorMessage .ParseError) (-3)) :=
  have hm := err_buffer_fallback envAll E1c 0 "not-a-magnet" "/d" 0
    .ParseError (by decide) (by decide)
  ⟨hm.1, hm.2 (-3)⟩

/-- Claim C10: `st_add_magnet` returns a single boolean: `false` on every
failure with the engine unchanged (no torrent registered) and only the
buffer text carrying the error class, and `true` exactly when a new entry
was registered into the session's registry. -/
theorem add_magnet_boolean_result (env : Env) (E : Engine) (h : Nat)
    (uri sp : String) (L : Int) :
    (∀ e, addMagnetCore env E h uri sp = .error e →
      st_add_magnet env E h uri sp L =
        (false, E, writeErrBuf (errorMessage e) L)) ∧
    ((st_add_magnet env E h uri sp L).1 = true ↔
      ∃ s : SessionState, lookupSlot E h = some (.live s) ∧
        lookupSlot (st_add_magnet env E h uri sp L).2.1 h = some (.live
          { entries := s.entries ++ [freshEntry (magnetKeyOf uri) s.nextIdentity]
            heldSnapshot := s.heldSnapshot
            nextIdentity := s.nextIdentity + 1 })) := by
  have hfailcase : ∀ e, addMagnetCore env E h uri sp = .error e →
      st_add_magnet env E h uri sp L =
        (false, E, writeErrBuf (errorMessage e) L) := by
    intro e he
    unfold st_add_magnet
    rw [he]
  refine ⟨hfailcase, ?_⟩
  cases hcore : addMagnetCore env E h uri sp with
  | error e =>
    have hb := hfailcase e hcore
    rw [hb]
    constructor
    · intro hfalse
      exact absurd hfalse (by simp)
    · rintro ⟨s, hl, hl'⟩
      have hl'' : lookupSlot E h = some (.live
          { entries := s.entries ++ [freshEntry (magnetKeyOf uri) s.nextIdentity]
            heldSnapshot := s.heldSnapshot
            nextIdentity := s.nextIdentity + 1 }) := hl'
      rw [hl] at hl''
      injection hl'' with h1
      injection h1 with h1
      have hlen := congrArg (fun t => t.entries.length) h1
      simp [List.length_append] at hlen
  | ok E₂ =>
    obtain ⟨s, hl, hE₂⟩ := addMagnetCore_ok_inv env E h uri sp E₂ hcore
    have hb : st_add_magnet env E h uri sp L = (true, E₂, .untouched) := by
      unfold st_add_magnet
      rw [hcore]
    rw [hb]
    constructor
    · intro hh
      refine ⟨s, hl, ?_⟩
      show lookupSlot E₂ h = _
      rw [hE₂]
      exact lookupSlot_setSlot_self E h _ _ hl
    · intro hh
      rfl

/-- Witness for C10: a duplicate add returns `false`, leaves the engine
unchanged, and reports only through the buffer. -/
theorem add_magnet_boolean_result_witness :
    st_add_magnet envAll Eadd 0 "magnet:aaa" "/d" 16 =
      (false, Eadd, writeErrBuf (errorMessage .DuplicateError) 16) :=
  (add_magnet_boolean_result envAll Eadd 0 "magnet:aaa" "/d" 16).1
    .DuplicateError (by decide)
